import Mathlib

/-!
Verification development for the hm3-agentic backend.

This file gives a shallow embedding of the parts of the repository that the
verified properties talk about:

* the JSON session files written under `sessions/` by
  `src/app/domain/chat/utils.py` (`save_sessions`, `add_chat_session`,
  `get_token`, `update_token`) and the tool wrappers in
  `src/app/domain/chat/tools.py` (`verify_token`, `save_token`);
* the streaming relay loop `chat_stream` of `src/app/domain/chat/utils.py`,
  together with the JSON-lines serialization it performs
  (`litestar.serialization.encode_json` / `json.dumps`);
* the Reddit download tool `download_reddit_video` of
  `src/app/domain/chat/tools.py`;
* the ORM data model of `src/app/db/models/chat.py` and the controller
  operations of `src/app/domain/chat/controller.py` and
  `src/app/domain/user/controller.py`.

Python `str` values are modelled as Lean `String`, Python `int` as `Int`,
JSON objects as Lean structures whose `Option` fields distinguish an absent
key (`none`) from a present one (`some _`).  File stores are modelled as
total maps from the identifying path component to the file content.
-/

namespace HM3

/-! ## Session files (utils.py: save_sessions / add_chat_session / tokens)

A session file `sessions/{session_id}.json` holds a JSON object with keys
`"token"` and `"chat_history"`.  `async_read_json` returns `{}` when the
file does not exist or is empty. -/

/-- One element of the `"chat_history"` array written by `add_chat_session`.
The wall-clock `"timestamp"` field is outside the model. -/
structure ChatHistoryEntry where
  role : String
  message : String
  type : String
deriving DecidableEq

/-- Model of a session-file JSON object.  For the `"token"` key,
`none` means the key is absent, `some none` that it is present and `null`,
`some (some s)` that it holds the string `s`.  For `"chat_history"`,
`none` means the key is absent. -/
structure SessionJson where
  token : Option (Option String) := none
  chatHistory : Option (List ChatHistoryEntry) := none
deriving DecidableEq

/-- The JSON object `\x7b\x7d`, as returned by `async_read_json` for a
missing or empty file. -/
def emptyJson : SessionJson := {}

/-- The session-file store, keyed by session id (the file path is
`sessions/{session_id}.json`, so the session id determines the file).
`none` means the file does not exist. -/
abbrev SessionStore := String → Option SessionJson

/-- A store with no session files. -/
def SessionStore.empty : SessionStore := fun _ => none

/-- `async_read_json` on `sessions/{sid}.json`: the stored object, or `\x7b\x7d`
when the file is missing. -/
def readJson (store : SessionStore) (sid : String) : SessionJson :=
  (store sid).getD emptyJson

/-- `save_sessions`: overwrite the session file for `sid`. -/
def writeJson (store : SessionStore) (sid : String) (j : SessionJson) : SessionStore :=
  fun s => if s = sid then some j else store s

/-- Python truthiness of `sessions.get("token", None)`-like values:
`None` and the empty string are falsy. -/
def truthyStr : Option String → Bool
  | none => false
  | some s => !(s == "")

/-- `get_token` (utils.py): read the session file and return
`sessions.get("token", None)`.  An absent key and a `null` value both give
`None`, collapsed by `Option.join`. -/
def get_token (store : SessionStore) (sid : String) : Option String :=
  (readJson store sid).token.join

/-- `update_token` (utils.py): read the session file, set
`sessions["token"] = token`, and write it back.  (Its `str` return value
`"Authentication successful"` plays no role.) -/
def update_token (store : SessionStore) (sid : String) (tok : String) : SessionStore :=
  let j := readJson store sid
  writeJson store sid { j with token := some (some tok) }

/-- `save_token` (tools.py): saves a user-provided access token by calling
`update_token(str(session_id), token)`. -/
def save_token (store : SessionStore) (sid : String) (tok : String) : SessionStore :=
  update_token store sid tok

/-- `verify_token` (tools.py): `"Token authenticated"` iff `get_token`
returns a truthy value. -/
def verify_token (store : SessionStore) (sid : String) : String :=
  if truthyStr (get_token store sid) then "Token authenticated" else "Token not authenticated"

/-- Errors `add_chat_session` can raise: a `KeyError` when the session file
exists but has no `"chat_history"` key. -/
inductive PyError where
  | keyError
deriving DecidableEq

/-- `add_chat_session` (utils.py): read the session file; replace an empty
object by `\x7b"token": null, "chat_history": []\x7d`; append the new entry to
`sessions["chat_history"]` (a `KeyError` if that key is absent); write the
file back. -/
def add_chat_session (store : SessionStore) (sid source message mtype : String) :
    Except PyError SessionStore :=
  let j := readJson store sid
  let j := if j = emptyJson then { token := some none, chatHistory := some [] } else j
  match j.chatHistory with
  | none => .error .keyError
  | some h =>
      .ok (writeJson store sid { j with chatHistory := some (h ++ [⟨source, message, mtype⟩]) })

/-- One invocation of `add_chat_session`, for describing stores built
without any token update. -/
structure AddOp where
  sid : String
  source : String
  message : String
  type : String
deriving DecidableEq

/-- Apply one `add_chat_session` call; a raised error leaves the store
unchanged (the caller's file is not written). -/
def applyAddOp (store : SessionStore) (op : AddOp) : SessionStore :=
  match add_chat_session store op.sid op.source op.message op.type with
  | .ok store' => store'
  | .error _ => store

/-- A store reachable from the empty store by `add_chat_session` calls only
(no token was ever saved). -/
def applyAddOps (ops : List AddOp) : SessionStore :=
  ops.foldl applyAddOp SessionStore.empty

/-! ## The authenticate endpoint (controller.py: ChatController.authenticate)

`POST /api/chats/authenticate` calls `login` against the external API and
inspects the JSON response. -/

/-- A `litestar` HTTP exception: status code and detail message. -/
structure HttpExc where
  status : Nat
  detail : String
deriving DecidableEq

/-- The part of the external login response that `authenticate` reads:
`res.get("access_token")`.  `none` models a response without the key. -/
structure LoginResponse where
  accessToken : Option String := none
deriving DecidableEq

/-- `ChatController.authenticate`: raise HTTP 401 when
`res.get("access_token")` is falsy (absent, `null`-collapsed, or the empty
string); otherwise `save_token(session_id, res["access_token"])`. -/
def authenticate (res : LoginResponse) (sid : String) (store : SessionStore) :
    Except HttpExc SessionStore :=
  match res.accessToken with
  | none => .error ⟨401, "Failed to authenticate"⟩
  | some t =>
      if t = "" then .error ⟨401, "Failed to authenticate"⟩
      else .ok (save_token store sid t)

/-! ## Substring utilities (Python `in` on `str`, `split`, `strip`, `lower`) -/

/-- `needle in hay` for character lists (Python substring test). -/
def hasSub (needle : List Char) : List Char → Bool
  | [] => needle.isEmpty
  | c :: t => needle.isPrefixOf (c :: t) || hasSub needle t

/-- `hay.split(needle, 1)[0]`: the characters before the first occurrence of
`needle` (all of `hay` when there is none). -/
def beforeSub (needle : List Char) : List Char → List Char
  | [] => []
  | c :: t => if needle.isPrefixOf (c :: t) then [] else c :: beforeSub needle t

/-- `"TERMINATE" in content` (utils.py line 398). -/
def containsTERMINATE (s : String) : Bool :=
  hasSub ("TERMINATE".data) s.data

/-- `content.split("TERMINATE", 1)[0].strip()` applied only when the marker
occurs, exactly as in utils.py lines 398-399.  `String.trim` models Python
`str.strip()`. -/
def stripTERMINATE (s : String) : String :=
  if containsTERMINATE s then (String.mk (beforeSub ("TERMINATE".data) s.data)).trim else s

/-- `str.lower()`, character-wise. -/
def lowerStr (s : String) : String := String.mk (s.data.map Char.toLower)

/-! ## JSON serialization (litestar `encode_json`, `json.dumps`)

`chat_stream` yields `encode_json(\x7b"type": ..., "role": ..., "message": ...\x7d)
+ b"\n"` for relayed events and `(json.dumps(err) + "\n").encode("utf-8")`
for the error line.  We model the JSON string escaping of the serializer:
`"` and `\` are escaped, control characters are escaped with short escapes
or `\u00XX`, so a serialized object contains no raw newline. -/

/-- The hexadecimal digit characters used by `\u00XX` escapes. -/
def hexDigit (n : Nat) : Char := ("0123456789abcdef".data).getD n 'f'

/-- JSON escaping of one character inside a string literal. -/
def escChar (c : Char) : List Char :=
  if c = '"' then ['\\', '"']
  else if c = '\\' then ['\\', '\\']
  else if c = '\n' then ['\\', 'n']
  else if c = '\t' then ['\\', 't']
  else if c = '\r' then ['\\', 'r']
  else if c = '\x08' then ['\\', 'b']
  else if c = '\x0c' then ['\\', 'f']
  else if c.toNat < 32 then
    ['\\', 'u', '0', '0', hexDigit (c.toNat / 16), hexDigit (c.toNat % 16)]
  else [c]

/-- A JSON string literal: `"` … escaped characters … `"`. -/
def jsonStrL (s : String) : List Char :=
  '"' :: ((s.data.map escChar).flatten ++ ['"'])

/-- `encode_json(\x7b"type": t, "role": r, "message": m\x7d)`: compact JSON with
the keys in the dict order of utils.py line 426. -/
def encodeEventJsonL (t r m : String) : List Char :=
  ("\x7b\"type\":".data) ++ jsonStrL t ++ (",\"role\":".data) ++ jsonStrL r
    ++ (",\"message\":".data) ++ jsonStrL m ++ ("\x7d".data)

/-- `json.dumps(\x7b"role": "system", "message": " An error occurred…"\x7d)`:
default separators insert a space after `:` and `,`, and `ensure_ascii`
escapes the three non-ASCII characters of the message as `â€”`
(exactly the bytes CPython produces for utils.py line 440). -/
def errorBodyL : List Char :=
  ("\x7b\"role\": \"system\", \"message\": \" An error occurred\\u00e2\\u20ac\\u201dplease try again.\"\x7d").data

/-! ## The relay loop `chat_stream` (utils.py lines 365-441)

The loop consumes the `team.run_stream` async iterator.  Each iterator step
either yields an autogen message or raises; `save_team_state` at the end may
also raise.  Everything the generator does is recorded as a trace of
effects: chat-history persistence, yielded chunks, setting the external
termination condition, and writing the team-state file. -/

/-- The autogen message kinds `chat_stream` dispatches on.  `otherMessage`
stands for any further kind produced by the runtime (stop messages, handoff
messages, the final `TaskResult`, …) that matches none of the `isinstance`
checks; the code reads only `source` and `content` from those.  For
`toolCallRequestEvent` the model carries `message.content[0].name`; for the
two tool-result kinds it carries the extracted tool result
`getattr(item, "content", item)`. -/
inductive AgentMessage where
  | toolCallExecutionEvent (source content : String)
  | memoryQueryEvent (source content : String)
  | thoughtEvent (source content : String)
  | userInputRequestedEvent (source : String)
  | textMessage (source content : String)
  | toolCallRequestEvent (source toolName : String)
  | functionExecutionResultMessage (source toolResult : String)
  | toolCallSummaryMessage (source toolResult : String)
  | otherMessage (source content : String)
deriving DecidableEq

/-- A chunk yielded by the generator, before byte serialization:
either `encode_json(\x7b"type", "role", "message"\x7d) + b"\n"` or the fixed
system error line. -/
inductive Chunk where
  | event (type role message : String)
  | errorLine
deriving DecidableEq

/-- One observable effect of the generator. -/
inductive Eff where
  | persist (e : ChatHistoryEntry)
  | yieldChunk (c : Chunk)
  | setTermination
  | saveState
deriving DecidableEq

/-- The byte serialization of a chunk (a UTF-8 string). -/
def chunkBytes : Chunk → String
  | .event t r m => String.mk (encodeEventJsonL t r m ++ ['\n'])
  | .errorLine => String.mk (errorBodyL ++ ['\n'])

/-- `source == "user" or source == "user_proxy" or source == "user_agent"`
(utils.py line 394). -/
def isUserSource (s : String) : Bool :=
  s == "user" || s == "user_proxy" || s == "user_agent"

/-- The effects of one loop iteration on one message, and whether the loop
breaks.  This mirrors utils.py lines 376-428 branch by branch:

* internal events are skipped;
* a `UserInputRequestedEvent` sets the external termination and breaks;
* an empty `source` is skipped;
* a user-proxy source is persisted as type `"text"` and not yielded (for the
  tool-event kinds, whose raw `content` is not a string, the model collapses
  the persisted message to the carried rendering; such user-sourced tool
  events do not occur in the runtime);
* `"TERMINATE"` and everything after it is stripped from string contents;
* a `TextMessage` is persisted as `"text"`, a `ToolCallRequestEvent` as
  `"tool_call"` with content `"Calling tool: <name>"`, the two tool-result
  kinds as `"tool_result"` with the result wrapped in a ```json fence —
  each before the serialized chunk is yielded;
* any other message is yielded with the default type `"text"` without being
  persisted. -/
def msgEffects : AgentMessage → List Eff × Bool
  | .toolCallExecutionEvent _ _ => ([], false)
  | .memoryQueryEvent _ _ => ([], false)
  | .thoughtEvent _ _ => ([], false)
  | .userInputRequestedEvent _ => ([Eff.setTermination], true)
  | .textMessage s c =>
      if s = "" then ([], false)
      else if isUserSource s then ([Eff.persist ⟨s, c, "text"⟩], false)
      else
        let c' := stripTERMINATE c
        ([Eff.persist ⟨s, c', "text"⟩, Eff.yieldChunk (Chunk.event "text" s c')], false)
  | .toolCallRequestEvent s n =>
      if s = "" then ([], false)
      else if isUserSource s then ([Eff.persist ⟨s, n, "text"⟩], false)
      else
        ([Eff.persist ⟨s, "Calling tool: " ++ n, "tool_call"⟩,
          Eff.yieldChunk (Chunk.event "tool_call" s ("Calling tool: " ++ n))], false)
  | .functionExecutionResultMessage s r =>
      if s = "" then ([], false)
      else if isUserSource s then ([Eff.persist ⟨s, r, "text"⟩], false)
      else
        let c' := "```json\n" ++ r ++ "\n```"
        ([Eff.persist ⟨s, c', "tool_result"⟩, Eff.yieldChunk (Chunk.event "tool_result" s c')], false)
  | .toolCallSummaryMessage s r =>
      if s = "" then ([], false)
      else if isUserSource s then ([Eff.persist ⟨s, r, "text"⟩], false)
      else
        let c' := "```json\n" ++ r ++ "\n```"
        ([Eff.persist ⟨s, c', "tool_result"⟩, Eff.yieldChunk (Chunk.event "tool_result" s c')], false)
  | .otherMessage s c =>
      if s = "" then ([], false)
      else if isUserSource s then ([Eff.persist ⟨s, c, "text"⟩], false)
      else ([Eff.yieldChunk (Chunk.event "text" s (stripTERMINATE c))], false)

/-- One step of the `team.run_stream` iterator: a message, or a raised
exception (from the runtime or from the persistence I/O of the iteration). -/
inductive StreamItem where
  | msg (m : AgentMessage)
  | raiseExc
deriving DecidableEq

/-- How the `async for` loop ended. -/
inductive LoopExit where
  | completed
  | broke
  | raised
deriving DecidableEq

/-- Run the `async for message in stream` loop over the iterator steps,
collecting effects. -/
def runRelay : List StreamItem → List Eff × LoopExit
  | [] => ([], .completed)
  | .raiseExc :: _ => ([], .raised)
  | .msg m :: rest =>
      let p := msgEffects m
      if p.2 then (p.1, .broke)
      else
        let q := runRelay rest
        (p.1 ++ q.1, q.2)

/-- The whole generator body of `chat_stream`: run the loop inside `try`;
when the loop finished without raising, `team.save_state()` /
`save_team_state` write the per-chat state file (`saveOk = false` models an
exception raised while saving); any caught exception makes the `except`
branch yield the fixed error line, and nothing escapes the generator. -/
def chat_stream (items : List StreamItem) (saveOk : Bool) : List Eff :=
  match runRelay items with
  | (t, .raised) => t ++ [Eff.yieldChunk Chunk.errorLine]
  | (t, _) => if saveOk then t ++ [Eff.saveState] else t ++ [Eff.yieldChunk Chunk.errorLine]

/-- The chunks yielded by a trace, in order. -/
def yieldsOf (effs : List Eff) : List Chunk :=
  effs.filterMap fun e => match e with | .yieldChunk c => some c | _ => none

/-- The chat-history entries persisted by a trace, in order. -/
def persistedOf (effs : List Eff) : List ChatHistoryEntry :=
  effs.filterMap fun e => match e with | .persist p => some p | _ => none

/-- How many times the trace wrote the team-state file. -/
def saveCount (effs : List Eff) : Nat :=
  effs.countP fun e => e == Eff.saveState

/-! ## `download_reddit_video` (tools.py lines 73-141) -/

/-- A Reddit submission as the tool reads it: `title`, `url`, `selftext`,
`is_video`, and whether the `redvid` download of it succeeds (the
`try/except` around `Downloader` skips a failing post). -/
structure RedditPost where
  title : String
  url : String
  selftext : String
  is_video : Bool
  downloadOk : Bool
deriving DecidableEq

/-- One element of the returned `downloaded` list. -/
structure DownloadEntry where
  title : String
  url : String
  file_path : String
  description : String
  category_id : String
deriving DecidableEq

/-- The dict appended to `downloaded` for a submission. -/
def mkEntry (folder : String) (p : RedditPost) : DownloadEntry :=
  ⟨p.title, p.url, folder ++ "/" ++ p.title ++ ".mp4", p.selftext, "22"⟩

/-- `any(kw.lower() in title_lower for kw in desired_keywords)`. -/
def keywordHit (kws : List String) (title : String) : Bool :=
  kws.any fun kw => hasSub ((lowerStr kw).data) ((lowerStr title).data)

/-- The `async for submission in posts` loop: break once `limit` entries are
collected; skip a post whose title matches no desired keyword (when keywords
were given), that is not a video, or whose download fails; otherwise append
its entry. -/
def dlLoop (folder : String) (kws : List String) (limit : Int) :
    List RedditPost → List DownloadEntry → List DownloadEntry
  | [], acc => acc
  | p :: rest, acc =>
      if limit ≤ (acc.length : Int) then acc
      else if kws ≠ [] ∧ keywordHit kws p.title = false then dlLoop folder kws limit rest acc
      else if p.is_video = false then dlLoop folder kws limit rest acc
      else if p.downloadOk = false then dlLoop folder kws limit rest acc
      else dlLoop folder kws limit rest (acc ++ [mkEntry folder p])

/-- The tool's return value: the downloaded entries, or the single-element
list `[\x7b"message": "No videos found", "status_code": 200\x7d]`. -/
inductive RedditResult where
  | videos (entries : List DownloadEntry)
  | noVideosMessage
deriving DecidableEq

/-- `download_reddit_video`: fetch at most 5 posts from `subreddit.top` or
`subreddit.new` according to `algorithm == "top"`, run the download loop,
and return the entries, or the "No videos found" message when nothing was
downloaded.  The `top`/`new` listings of the subreddit are parameters; the
`limit=5` of the listing request is the `take 5`. -/
def download_reddit_video (downloadFolderPath subredditName : String)
    (topPosts newPosts : List RedditPost) (algorithm : String)
    (desired_keywords : List String) (limit : Int) : RedditResult :=
  let folder := downloadFolderPath ++ "/" ++ subredditName
  let posts := (if algorithm = "top" then topPosts else newPosts).take 5
  let downloaded := dlLoop folder desired_keywords limit posts []
  if downloaded.isEmpty then .noVideosMessage else .videos downloaded

/-! ## ORM rows and controller operations

`src/app/db/models/chat.py` declares `Chat` (`user_id` non-nullable, FK to
`users.id`, `ondelete="CASCADE"`) and `ChatMessage` (`chat_id` nullable, FK
to `chats.id`, `ondelete="CASCADE"`, and `cascade="all, delete-orphan"` on
`Chat.messages`).  The `User` row fields follow the user schema
(`src/app/domain/user/schemas.py`). -/

/-- A row of `users`. -/
structure UserRow where
  id : String
  email : String
  name : Option String
  avatarUrl : Option String
  isSuperuser : Bool
  isActive : Bool
  isVerified : Bool
deriving DecidableEq

/-- A row of `chats`.  `user_id` is `nullable=False`, hence not an
`Option`. -/
structure ChatRow where
  id : String
  userId : String
  title : String
deriving DecidableEq

/-- A row of `chat_messages`.  `chat_id` is `nullable=True`, hence an
`Option`. -/
structure ChatMessageRow where
  id : String
  chatId : Option String
  role : String
  type : String
  message : String
deriving DecidableEq

/-- The relational store. -/
structure Db where
  users : List UserRow
  chats : List ChatRow
  messages : List ChatMessageRow
deriving DecidableEq

/-- `chat_service.delete(item_id=chat_id)`: delete the chat row by primary
key; the `ondelete="CASCADE"` foreign key (and the `delete-orphan`
relationship cascade) removes every message of that chat. -/
def serviceDeleteChat (db : Db) (cid : String) : Db :=
  { db with
    chats := db.chats.filter fun c => !(c.id == cid)
    messages := db.messages.filter fun m => !(m.chatId == some cid) }

/-- `users_repo.update` after `user_obj.is_active = False`: the row with the
addressed primary key gets `is_active = False`; every other row and every
other field is untouched. -/
def deactivateRows (users : List UserRow) (uid : String) : List UserRow :=
  users.map fun u => if u.id == uid then { u with isActive := false } else u

/-- `UserController.deactivate_user` (user/controller.py lines 117-133),
routed as `DELETE /api/users/\x7buser_id\x7d`: `users_repo.get` raises a
not-found error when no such user exists; otherwise the row is updated in
place and committed. -/
def deactivate_user (users : List UserRow) (uid : String) :
    Except HttpExc (List UserRow) :=
  match users.find? (fun u => u.id == uid) with
  | none => .error ⟨404, "No record found"⟩
  | some _ => .ok (deactivateRows users uid)

/-- The response of the delete-chat endpoint. -/
structure DeleteResponse where
  status : Nat
  chatId : String
deriving DecidableEq

/-- The background task scheduled on the delete-chat response:
`BackgroundTask(delete_team_state, chat_id_str)`. -/
inductive BackgroundTask where
  | deleteTeamStateFile (sid : String)
deriving DecidableEq

/-- Run a background task against the set of existing team-state files
(keyed by session id, the path being `teams/\x7bsid\x7d.json`):
`delete_team_state` removes the file when it exists and does nothing
otherwise. -/
def runBackground : BackgroundTask → List String → List String
  | .deleteTeamStateFile sid, files => files.filter fun f => !(f == sid)

/-- `chat_service.get_one_or_none(id=chat_id, user_id=user_id)`. -/
def getOneOrNone (chats : List ChatRow) (cid uid : String) : Option ChatRow :=
  chats.find? fun c => c.id == cid && c.userId == uid

/-- `ChatController.delete_chat` (chat/controller.py lines 172-196): when no
chat with the given id belongs to the requesting user, raise
`NotAuthorizedException` (status 404) and change nothing; otherwise delete
the chat and answer 200 with the chat id, scheduling `delete_team_state` as
a background task.  The result pairs the HTTP outcome with the database
after the call. -/
def delete_chat (db : Db) (cid uid : String) :
    Except HttpExc (DeleteResponse × BackgroundTask) × Db :=
  if (getOneOrNone db.chats cid uid).isSome then
    (.ok (⟨200, cid⟩, .deleteTeamStateFile cid), serviceDeleteChat db cid)
  else
    (.error ⟨404, "User does not authorize to delete the chat of others"⟩, db)

/-! ## The operations of the repository that touch the relational store

Used to state preservation of referential integrity: creating users
(`UserController.create_user`), chats (`ChatController.create_chat`),
chat messages (`ChatController.query_chat`), deleting chats
(`ChatController.delete_chat`), deactivating users
(`UserController.deactivate_user`).  The foreign-key checks mirror the
constraints the database enforces on insert; a violated constraint raises,
leaving the store unchanged. -/

/-- A database-level error surfaced by an operation. -/
inductive DbError where
  | integrityError
  | notFound
deriving DecidableEq

/-- The store-mutating operations of the repository. -/
inductive DbOp where
  | createUser (u : UserRow)
  | createChat (id userId title : String)
  | createMessage (id chatId role type message : String)
  | deleteChat (chatId : String)
  | deactivateUser (userId : String)
deriving DecidableEq

/-- Apply one operation, enforcing primary-key uniqueness for users and
chats and the foreign-key constraints `chats.user_id → users.id` and
`chat_messages.chat_id → chats.id`. -/
def applyOp (db : Db) : DbOp → Except DbError Db
  | .createUser u =>
      if db.users.any (fun x => x.id == u.id) then .error .integrityError
      else .ok { db with users := db.users ++ [u] }
  | .createChat i uid title =>
      if db.users.any (fun x => x.id == uid) then
        if db.chats.any (fun c => c.id == i) then .error .integrityError
        else .ok { db with chats := db.chats ++ [⟨i, uid, title⟩] }
      else .error .integrityError
  | .createMessage i cid role ty msg =>
      if db.chats.any (fun c => c.id == cid) then
        .ok { db with messages := db.messages ++ [⟨i, some cid, role, ty, msg⟩] }
      else .error .integrityError
  | .deleteChat cid => .ok (serviceDeleteChat db cid)
  | .deactivateUser uid =>
      match db.users.find? (fun u => u.id == uid) with
      | none => .error .notFound
      | some _ => .ok { db with users := deactivateRows db.users uid }

/-- Referential integrity of the store: every chat's `user_id` names an
existing user, and every message's `chat_id` names an existing chat. -/
def RefIntegrity (db : Db) : Prop :=
  (∀ c ∈ db.chats, ∃ u ∈ db.users, u.id = c.userId) ∧
  (∀ m ∈ db.messages, ∃ c ∈ db.chats, some c.id = m.chatId)

/-! ## Helper lemmas -/

theorem get_token_writeJson (store : SessionStore) (sid : String) (j : SessionJson)
    (s : String) :
    get_token (writeJson store sid j) s = if s = sid then j.token.join else get_token store s := by
  unfold get_token readJson writeJson
  split <;> rfl

theorem get_token_applyAddOp (store : SessionStore) (op : AddOp)
    (h : ∀ s, get_token store s = none) (s : String) :
    get_token (applyAddOp store op) s = none := by
  unfold applyAddOp add_chat_session
  by_cases hj : readJson store op.sid = emptyJson
  · simp only [hj, reduceIte]
    rw [get_token_writeJson]
    split
    · rfl
    · exact h s
  · simp only [hj, reduceIte]
    cases hch : (readJson store op.sid).chatHistory with
    | none => exact h s
    | some l =>
        rw [get_token_writeJson]
        split
        · have := h op.sid
          unfold get_token at this
          exact this
        · exact h s

theorem get_token_applyAddOps_aux (ops : List AddOp) :
    ∀ store : SessionStore, (∀ s, get_token store s = none) →
      ∀ s, get_token (ops.foldl applyAddOp store) s = none := by
  induction ops with
  | nil => intro store h s; exact h s
  | cons op rest ih =>
      intro store h s
      exact ih (applyAddOp store op) (get_token_applyAddOp store op h) s

theorem get_token_applyAddOps (ops : List AddOp) (s : String) :
    get_token (applyAddOps ops) s = none :=
  get_token_applyAddOps_aux ops SessionStore.empty (fun _ => rfl) s

/-! ## Claims C7 and C9: the authenticate endpoint and the token round trip -/

/-- Claim C7 counterexample: when the external login response contains the
key `"access_token"` with the empty string as its value, `authenticate`
still raises the HTTP 401 exception, so "401 if and only if the response
contains no access_token" fails at this input. -/
theorem C7_counterexample :
    (authenticate ⟨some ""⟩ "sess0" SessionStore.empty).isOk = false ∧
    (LoginResponse.accessToken ⟨some ""⟩).isSome = true := by
  exact ⟨rfl, rfl⟩

/-- Claim C7, amended: the authenticate endpoint raises HTTP 401 exactly
when the external login response has no truthy `"access_token"` (the key is
absent, or its value is empty); when a non-empty access token is present,
it is saved into the session file of the given session id. -/
theorem C7_authenticate (res : LoginResponse) (sid : String) (store : SessionStore) :
    ((∃ e, authenticate res sid store = .error e ∧ e.status = 401) ↔
       (res.accessToken = none ∨ res.accessToken = some "")) ∧
    (∀ t, res.accessToken = some t → t ≠ "" →
       authenticate res sid store = .ok (save_token store sid t) ∧
       (readJson (save_token store sid t) sid).token = some (some t) ∧
       get_token (save_token store sid t) sid = some t) := by
  constructor
  · cases hres : res.accessToken with
    | none => simp [authenticate, hres]
    | some t =>
        by_cases ht : t = ""
        · subst ht
          simp [authenticate, hres]
        · simp [authenticate, hres, ht]
  · intro t hres ht
    refine ⟨by simp [authenticate, hres, ht], ?_, ?_⟩
    · simp [save_token, update_token, readJson, writeJson]
    · simp [save_token, update_token, get_token, readJson, writeJson]

/-- Claim C7 witness: a concrete successful authentication. -/
theorem C7_witness :
    authenticate ⟨some "tok123"⟩ "sess" SessionStore.empty =
      .ok (save_token SessionStore.empty "sess" "tok123") ∧
    get_token (save_token SessionStore.empty "sess" "tok123") "sess" = some "tok123" := by
  have h := (C7_authenticate ⟨some "tok123"⟩ "sess" SessionStore.empty).2 "tok123" rfl
    (by decide)
  exact ⟨h.1, h.2.2⟩

/-- Claim C9 counterexample: saving the empty string as token makes
`get_token` return it, but `verify_token` still answers
`"Token not authenticated"` (the emptiness check in `verify_token` is a
Python truthiness test), so the round trip as claimed fails for the empty
token. -/
theorem C9_counterexample :
    get_token (update_token SessionStore.empty "sess" "") "sess" = some "" ∧
    verify_token (update_token SessionStore.empty "sess" "") "sess" = "Token not authenticated" ∧
    verify_token (update_token SessionStore.empty "sess" "") "sess" ≠ "Token authenticated" := by
  refine ⟨rfl, rfl, by decide⟩

/-- Claim C9, amended: for every session id and every **non-empty** token,
after `update_token` (as invoked by `save_token`) `get_token` returns
exactly that token and `verify_token` answers `"Token authenticated"`;
for a session for which no token was ever saved (any store reachable from
the empty store by `add_chat_session` calls alone) `get_token` returns
`None` and `verify_token` answers `"Token not authenticated"`. -/
theorem C9_token_roundtrip (store : SessionStore) (sid tok : String) (h : tok ≠ "") :
    get_token (save_token store sid tok) sid = some tok ∧
    verify_token (save_token store sid tok) sid = "Token authenticated" ∧
    (∀ ops : List AddOp,
       get_token (applyAddOps ops) sid = none ∧
       verify_token (applyAddOps ops) sid = "Token not authenticated") := by
  refine ⟨?_, ?_, ?_⟩
  · simp [save_token, update_token, get_token, readJson, writeJson]
  · simp [save_token, update_token, verify_token, get_token, readJson, writeJson, truthyStr, h]
  · intro ops
    refine ⟨get_token_applyAddOps ops sid, ?_⟩
    unfold verify_token
    rw [get_token_applyAddOps ops sid]
    rfl

/-- Claim C9 witness: the round trip at a concrete non-empty token, and the
fresh-session half at a concrete store built by one `add_chat_session`. -/
theorem C9_witness :
    get_token (save_token SessionStore.empty "sess" "jwt-1") "sess" = some "jwt-1" ∧
    verify_token (save_token SessionStore.empty "sess" "jwt-1") "sess" = "Token authenticated" ∧
    get_token (applyAddOps [⟨"sess", "user", "hi", "text"⟩]) "sess" = none := by
  have h := C9_token_roundtrip SessionStore.empty "sess" "jwt-1" (by decide)
  exact ⟨h.1, h.2.1, (h.2.2 [⟨"sess", "user", "hi", "text"⟩]).1⟩

/-! ## Claim C10: deactivate_user -/

/-- Claim C10: `DELETE /api/users/\x7buser_id\x7d` does not remove the user row:
`deactivate_user` keeps the number of rows, sets `is_active := false` on the
addressed row while keeping its other fields, leaves every other row
unchanged, and every resulting row differs from its original at most in
`is_active`. -/
theorem C10_deactivate_user (users users' : List UserRow) (uid : String)
    (h : deactivate_user users uid = .ok users') :
    users'.length = users.length ∧
    (∀ u ∈ users, u.id ≠ uid → u ∈ users') ∧
    (∀ u ∈ users, u.id = uid → ({ u with isActive := false } : UserRow) ∈ users') ∧
    (∀ u' ∈ users', ∃ u ∈ users,
       u'.id = u.id ∧ u'.email = u.email ∧ u'.name = u.name ∧
       u'.avatarUrl = u.avatarUrl ∧ u'.isSuperuser = u.isSuperuser ∧
       u'.isVerified = u.isVerified ∧
       (u'.isActive = u.isActive ∨ (u.id = uid ∧ u'.isActive = false))) := by
  unfold deactivate_user at h
  cases hf : users.find? (fun u => u.id == uid) with
  | none => rw [hf] at h; exact absurd h (by simp)
  | some w =>
      rw [hf] at h
      have husers : users' = deactivateRows users uid := by
        injection h with h'; exact h'.symm
      subst husers
      refine ⟨by simp [deactivateRows], ?_, ?_, ?_⟩
      · intro u hu hne
        have : (if u.id == uid then { u with isActive := false } else u) = u := by
          simp [hne]
        exact this ▸ List.mem_map_of_mem _ hu
      · intro u hu he
        have : (if u.id == uid then { u with isActive := false } else u) =
            { u with isActive := false } := by simp [he]
        exact this ▸ List.mem_map_of_mem _ hu
      · intro u' hu'
        rcases List.mem_map.mp hu' with ⟨u, hu, hmap⟩
        by_cases he : u.id = uid
        · refine ⟨u, hu, ?_⟩
          rw [← hmap]
          simp [he]
        · refine ⟨u, hu, ?_⟩
          rw [← hmap]
          simp [he]

/-- Claim C10 witness: a store with two users; deactivating the first flips
only its `is_active`. -/
theorem C10_witness :
    deactivate_user
        [⟨"u1", "a@x", none, none, false, true, false⟩,
         ⟨"u2", "b@x", none, none, false, true, true⟩] "u1" =
      .ok [⟨"u1", "a@x", none, none, false, false, false⟩,
           ⟨"u2", "b@x", none, none, false, true, true⟩] ∧
    (⟨"u2", "b@x", none, none, false, true, true⟩ : UserRow) ∈
      [(⟨"u1", "a@x", none, none, false, false, false⟩ : UserRow),
       ⟨"u2", "b@x", none, none, false, true, true⟩] := by
  refine ⟨rfl, ?_⟩
  have h := C10_deactivate_user
    [⟨"u1", "a@x", none, none, false, true, false⟩,
     ⟨"u2", "b@x", none, none, false, true, true⟩]
    [⟨"u1", "a@x", none, none, false, false, false⟩,
     ⟨"u2", "b@x", none, none, false, true, true⟩] "u1" rfl
  exact h.2.1 ⟨"u2", "b@x", none, none, false, true, true⟩ (by decide) (by decide)

/-! ## Claim C5: the delete-chat endpoint -/

/-- Claim C5: the delete-chat endpoint deletes a chat exactly when a chat
with the given id belongs to the requesting user; otherwise it raises an
HTTP exception and leaves the stored chats unchanged; on success it answers
200 with the chat id and schedules deletion of that chat's on-disk
team-state file. -/
theorem C5_delete_chat (db : Db) (cid uid : String) :
    ((delete_chat db cid uid).1.isOk = true ↔
       ∃ c ∈ db.chats, c.id = cid ∧ c.userId = uid) ∧
    (∀ e, (delete_chat db cid uid).1 = .error e → (delete_chat db cid uid).2 = db) ∧
    (∀ resp task, (delete_chat db cid uid).1 = .ok (resp, task) →
       resp.status = 200 ∧ resp.chatId = cid ∧
       task = BackgroundTask.deleteTeamStateFile cid ∧
       (∀ c ∈ (delete_chat db cid uid).2.chats, c.id ≠ cid) ∧
       (∀ c ∈ db.chats, c.id ≠ cid → c ∈ (delete_chat db cid uid).2.chats) ∧
       (∀ files, cid ∉ runBackground task files)) := by
  by_cases hf : (getOneOrNone db.chats cid uid).isSome
  · have hiff : ∃ c ∈ db.chats, c.id = cid ∧ c.userId = uid := by
      unfold getOneOrNone at hf
      cases hfind : db.chats.find? (fun c => c.id == cid && c.userId == uid) with
      | none => rw [hfind] at hf; simp at hf
      | some c =>
          have hmem := List.mem_of_find?_eq_some hfind
          have hp := List.find?_some hfind
          simp only [Bool.and_eq_true, beq_iff_eq] at hp
          exact ⟨c, hmem, hp.1, hp.2⟩
    refine ⟨by simp [delete_chat, hf, hiff, Except.isOk, Except.toBool], ?_, ?_⟩
    · intro e he
      simp [delete_chat, hf] at he
    · intro resp task h
      simp only [delete_chat, hf, reduceIte, Except.ok.injEq, Prod.mk.injEq] at h
      obtain ⟨hresp, htask⟩ := h
      refine ⟨by rw [← hresp], by rw [← hresp], htask.symm, ?_, ?_, ?_⟩
      · intro c hc
        simp only [delete_chat, hf, reduceIte, serviceDeleteChat] at hc
        have := (List.mem_filter.mp hc).2
        simpa using this
      · intro c hc hne
        simp only [delete_chat, hf, reduceIte, serviceDeleteChat]
        exact List.mem_filter.mpr ⟨hc, by simpa using hne⟩
      · intro files hmem
        rw [← htask] at hmem
        simp only [runBackground] at hmem
        have := (List.mem_filter.mp hmem).2
        simp at this
  · have hiff : ¬ ∃ c ∈ db.chats, c.id = cid ∧ c.userId = uid := by
      intro ⟨c, hc, h1, h2⟩
      apply hf
      unfold getOneOrNone
      apply List.find?_isSome.mpr
      refine ⟨c, hc, ?_⟩
      simp only [Bool.and_eq_true, beq_iff_eq]
      exact ⟨h1, h2⟩
    refine ⟨?_, ?_, ?_⟩
    · simp only [delete_chat, hf, reduceIte]
      constructor
      · intro h; simp [Except.isOk, Except.toBool] at h
      · intro h; exact absurd h hiff
    · intro e _
      simp [delete_chat, hf]
    · intro resp task h
      simp [delete_chat, hf] at h

/-- Claim C5 witness: one stored chat, deleted by its owner; and the same
request by another user is rejected with the database unchanged. -/
theorem C5_witness :
    (delete_chat ⟨[], [⟨"c1", "u1", "New Chat"⟩], []⟩ "c1" "u1").1.isOk = true ∧
    (delete_chat ⟨[], [⟨"c1", "u1", "New Chat"⟩], []⟩ "c1" "u2").2 =
      ⟨[], [⟨"c1", "u1", "New Chat"⟩], []⟩ := by
  constructor
  · exact (C5_delete_chat ⟨[], [⟨"c1", "u1", "New Chat"⟩], []⟩ "c1" "u1").1.mpr
      ⟨⟨"c1", "u1", "New Chat"⟩, by decide, rfl, rfl⟩
  · exact (C5_delete_chat ⟨[], [⟨"c1", "u1", "New Chat"⟩], []⟩ "c1" "u2").2.1
      ⟨404, "User does not authorize to delete the chat of others"⟩ rfl

/-! ## Claim C8: referential integrity -/

/-- Claim C8: every repository operation preserves referential integrity:
each chat's (non-nullable) `user_id` references an existing user, each
message's `chat_id` references an existing chat, and deleting a chat also
deletes all of its messages, so no message is left with a dangling
`chat_id`. -/
theorem C8_integrity (db db' : Db) (op : DbOp)
    (hI : RefIntegrity db) (h : applyOp db op = .ok db') :
    RefIntegrity db' ∧
    (∀ cid, op = DbOp.deleteChat cid → ∀ m ∈ db'.messages, m.chatId ≠ some cid) := by
  obtain ⟨hchats, hmsgs⟩ := hI
  cases op with
  | createUser u =>
      refine ⟨?_, by intro cid hop; exact absurd hop (by simp)⟩
      simp only [applyOp] at h
      split at h
      · exact absurd h (by simp)
      · injection h with h'
        subst h'
        refine ⟨?_, ?_⟩
        · intro c hc
          rcases hchats c hc with ⟨w, hw, hwid⟩
          exact ⟨w, List.mem_append_left _ hw, hwid⟩
        · exact hmsgs
  | createChat i uid title =>
      refine ⟨?_, by intro cid hop; exact absurd hop (by simp)⟩
      simp only [applyOp] at h
      by_cases hu : (db.users.any fun x => x.id == uid) = true
      · by_cases hdup : (db.chats.any fun c => c.id == i) = true
        · rw [if_pos hu, if_pos hdup] at h
          exact absurd h (by simp)
        · rw [if_pos hu, if_neg hdup] at h
          injection h with h'
          subst h'
          constructor
          · intro c hc
            rcases List.mem_append.mp hc with hc | hc
            · exact hchats c hc
            · rcases List.mem_singleton.mp hc with rfl
              rcases List.any_eq_true.mp hu with ⟨w, hw, hwid⟩
              exact ⟨w, hw, by simpa using hwid⟩
          · intro m hm
            rcases hmsgs m hm with ⟨c, hc, hcid⟩
            exact ⟨c, List.mem_append_left _ hc, hcid⟩
      · rw [if_neg hu] at h
        exact absurd h (by simp)
  | createMessage i cid role ty msg =>
      refine ⟨?_, by intro cid' hop; exact absurd hop (by simp)⟩
      simp only [applyOp] at h
      by_cases hcany : (db.chats.any fun c => c.id == cid) = true
      · rw [if_pos hcany] at h
        injection h with h'
        subst h'
        refine ⟨hchats, ?_⟩
        intro m hm
        rcases List.mem_append.mp hm with hm | hm
        · exact hmsgs m hm
        · rcases List.mem_singleton.mp hm with rfl
          rcases List.any_eq_true.mp hcany with ⟨c, hc, hcid⟩
          exact ⟨c, hc, by simpa using hcid⟩
      · rw [if_neg hcany] at h
        exact absurd h (by simp)
  | deleteChat cid =>
      simp only [applyOp, Except.ok.injEq] at h
      subst h
      constructor
      · constructor
        · intro c hc
          exact hchats c (List.mem_filter.mp hc).1
        · intro m hm
          obtain ⟨hm', hkeep⟩ := List.mem_filter.mp hm
          rcases hmsgs m hm' with ⟨c, hc, hcid⟩
          refine ⟨c, List.mem_filter.mpr ⟨hc, ?_⟩, hcid⟩
          simp only [Bool.not_eq_eq_eq_not, Bool.not_true, beq_eq_false_iff_ne, ne_eq] at hkeep ⊢
          intro hceq
          exact hkeep (by rw [← hcid, hceq])
      · intro cid' hop m hm
        injection hop with hop'
        subst hop'
        have hkeep := (List.mem_filter.mp hm).2
        simpa using hkeep
  | deactivateUser uid =>
      refine ⟨?_, by intro cid hop; exact absurd hop (by simp)⟩
      simp only [applyOp] at h
      split at h
      · exact absurd h (by simp)
      · injection h with h'
        subst h'
        constructor
        · intro c hc
          rcases hchats c hc with ⟨w, hw, hwid⟩
          refine ⟨if w.id == uid then { w with isActive := false } else w, ?_, ?_⟩
          · exact List.mem_map_of_mem _ hw
          · split <;> simpa using hwid
        · exact hmsgs

/-- Claim C8 witness: from a one-user store, creating a chat, adding a
message to it and then deleting the chat preserves integrity and leaves no
message behind. -/
theorem C8_witness :
    RefIntegrity ⟨[⟨"u1", "a@x", none, none, false, true, false⟩],
      [⟨"c1", "u1", "New Chat"⟩], [⟨"m1", some "c1", "user", "text", "hi"⟩]⟩ ∧
    (∀ m ∈ (Db.messages ⟨[⟨"u1", "a@x", none, none, false, true, false⟩], [], []⟩),
       m.chatId ≠ some "c1") := by
  have hI : RefIntegrity ⟨[⟨"u1", "a@x", none, none, false, true, false⟩],
      [⟨"c1", "u1", "New Chat"⟩], [⟨"m1", some "c1", "user", "text", "hi"⟩]⟩ := by
    constructor
    · intro c hc
      rcases List.mem_singleton.mp hc with rfl
      exact ⟨⟨"u1", "a@x", none, none, false, true, false⟩, by decide, rfl⟩
    · intro m hm
      rcases List.mem_singleton.mp hm with rfl
      exact ⟨⟨"c1", "u1", "New Chat"⟩, by decide, rfl⟩
  have h := C8_integrity
    ⟨[⟨"u1", "a@x", none, none, false, true, false⟩],
      [⟨"c1", "u1", "New Chat"⟩], [⟨"m1", some "c1", "user", "text", "hi"⟩]⟩
    ⟨[⟨"u1", "a@x", none, none, false, true, false⟩], [], []⟩
    (DbOp.deleteChat "c1") hI rfl
  exact ⟨hI, h.2 "c1" rfl⟩

/-! ## Claim C6: download_reddit_video -/

theorem dlLoop_mem (folder : String) (kws : List String) (limit : Int) :
    ∀ (posts : List RedditPost) (acc : List DownloadEntry),
      ∀ e ∈ dlLoop folder kws limit posts acc,
        e ∈ acc ∨ ∃ p ∈ posts, e = mkEntry folder p ∧ p.is_video = true ∧
          (kws ≠ [] → keywordHit kws p.title = true) := by
  intro posts
  induction posts with
  | nil => intro acc e he; exact Or.inl he
  | cons p rest ih =>
      intro acc e he
      unfold dlLoop at he
      split_ifs at he with h1 h2 h3 h4
      · exact Or.inl he
      · rcases ih acc e he with h | ⟨q, hq, hrest⟩
        · exact Or.inl h
        · exact Or.inr ⟨q, List.mem_cons_of_mem _ hq, hrest⟩
      · rcases ih acc e he with h | ⟨q, hq, hrest⟩
        · exact Or.inl h
        · exact Or.inr ⟨q, List.mem_cons_of_mem _ hq, hrest⟩
      · rcases ih acc e he with h | ⟨q, hq, hrest⟩
        · exact Or.inl h
        · exact Or.inr ⟨q, List.mem_cons_of_mem _ hq, hrest⟩
      · rcases ih (acc ++ [mkEntry folder p]) e he with h | ⟨q, hq, hrest⟩
        · rcases List.mem_append.mp h with h | h
          · exact Or.inl h
          · rcases List.mem_singleton.mp h with rfl
            refine Or.inr ⟨p, List.mem_cons_self _ _, rfl, ?_, ?_⟩
            · cases hv : p.is_video with
              | true => rfl
              | false => exact absurd hv h3
            · intro hk
              cases hkh : keywordHit kws p.title with
              | true => rfl
              | false => exact absurd ⟨hk, hkh⟩ h2
        · exact Or.inr ⟨q, List.mem_cons_of_mem _ hq, hrest⟩

theorem dlLoop_length (folder : String) (kws : List String) (limit : Int) :
    ∀ (posts : List RedditPost) (acc : List DownloadEntry),
      (dlLoop folder kws limit posts acc).length ≤ max acc.length limit.toNat := by
  intro posts
  induction posts with
  | nil => intro acc; exact Nat.le_max_left _ _
  | cons p rest ih =>
      intro acc
      unfold dlLoop
      split_ifs with h1 h2 h3 h4
      · exact Nat.le_max_left _ _
      · exact ih acc
      · exact ih acc
      · exact ih acc
      · have hlen := ih (acc ++ [mkEntry folder p])
        simp only [List.length_append, List.length_singleton] at hlen
        have hlt : (acc.length : Int) < limit := by omega
        have : acc.length + 1 ≤ limit.toNat := by omega
        omega

/-- Claim C6: `download_reddit_video` examines at most the first 5 posts of
the listing chosen by the `algorithm` argument; every downloaded entry comes
from a post that is a video and whose title, when keywords were requested,
contains one of them case-insensitively; the downloaded list has at most
`limit` entries; and when nothing is downloaded the single "No videos found"
message entry is returned instead. -/
theorem C6_download_reddit_video (base sub : String) (topPosts newPosts : List RedditPost)
    (alg : String) (kws : List String) (limit : Int) :
    download_reddit_video base sub topPosts newPosts alg kws limit =
      download_reddit_video base sub (topPosts.take 5) (newPosts.take 5) alg kws limit ∧
    (∀ entries,
       download_reddit_video base sub topPosts newPosts alg kws limit =
           RedditResult.videos entries →
         entries ≠ [] ∧ (entries.length : Int) ≤ limit ∧
         ∀ e ∈ entries, ∃ p ∈ (if alg = "top" then topPosts else newPosts).take 5,
           e = mkEntry (base ++ "/" ++ sub) p ∧ p.is_video = true ∧
           (kws ≠ [] → keywordHit kws p.title = true)) ∧
    (download_reddit_video base sub topPosts newPosts alg kws limit =
         RedditResult.noVideosMessage ↔
       dlLoop (base ++ "/" ++ sub) kws limit
         ((if alg = "top" then topPosts else newPosts).take 5) [] = []) := by
  refine ⟨?_, ?_, ?_⟩
  · by_cases halg : alg = "top" <;>
      simp [download_reddit_video, halg, List.take_take]
  · intro entries h
    unfold download_reddit_video at h
    by_cases hemp : (dlLoop (base ++ "/" ++ sub) kws limit
        ((if alg = "top" then topPosts else newPosts).take 5) []).isEmpty
    · rw [if_pos hemp] at h
      exact absurd h (by simp)
    · rw [if_neg hemp] at h
      injection h with h'
      subst h'
      have hne : dlLoop (base ++ "/" ++ sub) kws limit
          ((if alg = "top" then topPosts else newPosts).take 5) [] ≠ [] := by
        intro hmt; rw [hmt] at hemp; exact hemp rfl
      refine ⟨hne, ?_, ?_⟩
      · have hlen : (dlLoop (base ++ "/" ++ sub) kws limit
            ((if alg = "top" then topPosts else newPosts).take 5) []).length ≤
              limit.toNat := by
          have hl := dlLoop_length (base ++ "/" ++ sub) kws limit
            ((if alg = "top" then topPosts else newPosts).take 5) []
          simpa using hl
        have hpos : 0 < (dlLoop (base ++ "/" ++ sub) kws limit
            ((if alg = "top" then topPosts else newPosts).take 5) []).length :=
          List.length_pos.mpr hne
        omega
      · intro e he
        rcases dlLoop_mem (base ++ "/" ++ sub) kws limit
          ((if alg = "top" then topPosts else newPosts).take 5) [] e he with h | h
        · exact absurd h (List.not_mem_nil e)
        · exact h
  · unfold download_reddit_video
    by_cases hemp : (dlLoop (base ++ "/" ++ sub) kws limit
        ((if alg = "top" then topPosts else newPosts).take 5) []).isEmpty
    · rw [if_pos hemp]
      simp only [true_iff]
      exact List.isEmpty_iff.mp hemp
    · rw [if_neg hemp]
      constructor
      · intro h; exact absurd h (by simp)
      · intro h
        exact absurd (List.isEmpty_iff.mpr h) hemp

/-- Claim C6 witness: one video post downloaded from the top listing. -/
theorem C6_witness :
    download_reddit_video "dl" "cats" [⟨"Cat", "u1", "d1", true, true⟩] [] "top" [] 1 =
      RedditResult.videos [mkEntry ("dl" ++ "/" ++ "cats") ⟨"Cat", "u1", "d1", true, true⟩] ∧
    (([mkEntry ("dl" ++ "/" ++ "cats") ⟨"Cat", "u1", "d1", true, true⟩].length : Int)) ≤ 1 := by
  have heq : download_reddit_video "dl" "cats" [⟨"Cat", "u1", "d1", true, true⟩] [] "top" [] 1 =
      RedditResult.videos [mkEntry ("dl" ++ "/" ++ "cats") ⟨"Cat", "u1", "d1", true, true⟩] := by
    decide
  have h := (C6_download_reddit_video "dl" "cats" [⟨"Cat", "u1", "d1", true, true⟩] [] "top"
    [] 1).2.1 [mkEntry ("dl" ++ "/" ++ "cats") ⟨"Cat", "u1", "d1", true, true⟩] heq
  exact ⟨heq, h.2.1⟩

/-! ## Helper lemmas for the relay loop -/

theorem mem_yieldsOf (c : Chunk) (effs : List Eff) :
    c ∈ yieldsOf effs ↔ Eff.yieldChunk c ∈ effs := by
  simp only [yieldsOf, List.mem_filterMap]
  constructor
  · rintro ⟨e, he, hme⟩
    cases e with
    | persist p => simp at hme
    | yieldChunk c' =>
        simp only [Option.some.injEq] at hme
        exact hme ▸ he
    | setTermination => simp at hme
    | saveState => simp at hme
  · intro h
    exact ⟨Eff.yieldChunk c, h, rfl⟩

theorem msgEffects_break (m : AgentMessage) (h : (msgEffects m).2 = true) :
    msgEffects m = ([Eff.setTermination], true) := by
  cases m with
  | userInputRequestedEvent s => rfl
  | toolCallExecutionEvent s c => simp [msgEffects] at h
  | memoryQueryEvent s c => simp [msgEffects] at h
  | thoughtEvent s c => simp [msgEffects] at h
  | textMessage s c =>
      revert h; simp only [msgEffects]; split_ifs <;> simp
  | toolCallRequestEvent s n =>
      revert h; simp only [msgEffects]; split_ifs <;> simp
  | functionExecutionResultMessage s r =>
      revert h; simp only [msgEffects]; split_ifs <;> simp
  | toolCallSummaryMessage s r =>
      revert h; simp only [msgEffects]; split_ifs <;> simp
  | otherMessage s c =>
      revert h; simp only [msgEffects]; split_ifs <;> simp

theorem saveState_not_msgEffects (m : AgentMessage) :
    Eff.saveState ∉ (msgEffects m).1 := by
  cases m <;> simp only [msgEffects] <;> first
    | simp
    | (split_ifs <;> simp)

theorem yield_shape_msgEffects (m : AgentMessage) (c : Chunk)
    (h : Eff.yieldChunk c ∈ (msgEffects m).1) :
    ∃ t r mm, c = Chunk.event t r mm ∧
      (t = "text" ∨ t = "tool_call" ∨ t = "tool_result") := by
  cases m with
  | toolCallExecutionEvent s c' => simp [msgEffects] at h
  | memoryQueryEvent s c' => simp [msgEffects] at h
  | thoughtEvent s c' => simp [msgEffects] at h
  | userInputRequestedEvent s => simp [msgEffects] at h
  | textMessage s c' =>
      revert h
      simp only [msgEffects]
      split_ifs <;> intro h
      · simp at h
      · simp at h
      · simp only [List.mem_cons, List.not_mem_nil, or_false] at h
        rcases h with h | h
        · exact absurd h (by simp)
        · injection h with h'
          exact ⟨"text", s, stripTERMINATE c', h', Or.inl rfl⟩
  | toolCallRequestEvent s n =>
      revert h
      simp only [msgEffects]
      split_ifs <;> intro h
      · simp at h
      · simp at h
      · simp only [List.mem_cons, List.not_mem_nil, or_false] at h
        rcases h with h | h
        · exact absurd h (by simp)
        · injection h with h'
          exact ⟨"tool_call", s, "Calling tool: " ++ n, h', Or.inr (Or.inl rfl)⟩
  | functionExecutionResultMessage s r =>
      revert h
      simp only [msgEffects]
      split_ifs <;> intro h
      · simp at h
      · simp at h
      · simp only [List.mem_cons, List.not_mem_nil, or_false] at h
        rcases h with h | h
        · exact absurd h (by simp)
        · injection h with h'
          exact ⟨"tool_result", s, "```json\n" ++ r ++ "\n```", h', Or.inr (Or.inr rfl)⟩
  | toolCallSummaryMessage s r =>
      revert h
      simp only [msgEffects]
      split_ifs <;> intro h
      · simp at h
      · simp at h
      · simp only [List.mem_cons, List.not_mem_nil, or_false] at h
        rcases h with h | h
        · exact absurd h (by simp)
        · injection h with h'
          exact ⟨"tool_result", s, "```json\n" ++ r ++ "\n```", h', Or.inr (Or.inr rfl)⟩
  | otherMessage s c' =>
      revert h
      simp only [msgEffects]
      split_ifs <;> intro h
      · simp at h
      · simp at h
      · simp only [List.mem_singleton] at h
        injection h with h'
        exact ⟨"text", s, stripTERMINATE c', h', Or.inl rfl⟩

theorem runRelay_no_saveState (items : List StreamItem) :
    Eff.saveState ∉ (runRelay items).1 := by
  induction items with
  | nil => simp [runRelay]
  | cons it rest ih =>
      cases it with
      | raiseExc => simp [runRelay]
      | msg m =>
          simp only [runRelay]
          by_cases hb : (msgEffects m).2 = true
          · rw [if_pos hb]
            exact saveState_not_msgEffects m
          · rw [if_neg hb]
            intro h
            rcases List.mem_append.mp h with h | h
            · exact saveState_not_msgEffects m h
            · exact ih h

theorem runRelay_yield_shape (items : List StreamItem) (c : Chunk)
    (h : Eff.yieldChunk c ∈ (runRelay items).1) :
    ∃ t r mm, c = Chunk.event t r mm ∧
      (t = "text" ∨ t = "tool_call" ∨ t = "tool_result") := by
  induction items with
  | nil => simp [runRelay] at h
  | cons it rest ih =>
      cases it with
      | raiseExc => simp [runRelay] at h
      | msg m =>
          simp only [runRelay] at h
          by_cases hb : (msgEffects m).2 = true
          · rw [if_pos hb] at h
            exact yield_shape_msgEffects m c h
          · rw [if_neg hb] at h
            rcases List.mem_append.mp h with h | h
            · exact yield_shape_msgEffects m c h
            · exact ih h

theorem runRelay_broke_term (items : List StreamItem)
    (h : (runRelay items).2 = LoopExit.broke) :
    Eff.setTermination ∈ (runRelay items).1 := by
  induction items with
  | nil => simp [runRelay] at h
  | cons it rest ih =>
      cases it with
      | raiseExc => simp [runRelay] at h
      | msg m =>
          simp only [runRelay] at h ⊢
          by_cases hb : (msgEffects m).2 = true
          · rw [if_pos hb]
            rw [msgEffects_break m hb]
            simp
          · rw [if_neg hb] at h ⊢
            exact List.mem_append.mpr (Or.inr (ih h))

theorem chat_stream_yield_cases (items : List StreamItem) (saveOk : Bool) (c : Chunk)
    (h : c ∈ yieldsOf (chat_stream items saveOk)) :
    c = Chunk.errorLine ∨ Eff.yieldChunk c ∈ (runRelay items).1 := by
  unfold chat_stream at h
  cases hr : runRelay items with
  | mk t ex =>
      rw [hr] at h
      cases ex with
      | raised =>
          rw [mem_yieldsOf] at h
          rcases List.mem_append.mp h with h | h
          · exact Or.inr h
          · rcases List.mem_singleton.mp h with h'
            injection h' with h''
            exact Or.inl h''
      | completed =>
          cases saveOk with
          | true =>
              rw [mem_yieldsOf] at h
              rcases List.mem_append.mp h with h | h
              · exact Or.inr h
              · exact absurd (List.mem_singleton.mp h) (by simp)
          | false =>
              rw [mem_yieldsOf] at h
              rcases List.mem_append.mp h with h | h
              · exact Or.inr h
              · rcases List.mem_singleton.mp h with h'
                injection h' with h''
                exact Or.inl h''
      | broke =>
          cases saveOk with
          | true =>
              rw [mem_yieldsOf] at h
              rcases List.mem_append.mp h with h | h
              · exact Or.inr h
              · exact absurd (List.mem_singleton.mp h) (by simp)
          | false =>
              rw [mem_yieldsOf] at h
              rcases List.mem_append.mp h with h | h
              · exact Or.inr h
              · rcases List.mem_singleton.mp h with h'
                injection h' with h''
                exact Or.inl h''

theorem errorLine_not_in_runRelay_yields (items : List StreamItem) :
    Chunk.errorLine ∉ yieldsOf (runRelay items).1 := by
  intro h
  rcases runRelay_yield_shape items Chunk.errorLine ((mem_yieldsOf _ _).mp h) with
    ⟨t, r, m, heq, _⟩
  exact absurd heq (by simp)

/-! ## Newline-freedom of the serialized chunks -/

theorem hexDigit_ne_newline (n : Nat) : hexDigit n ≠ '\n' := by
  unfold hexDigit
  rcases Nat.lt_or_ge n 16 with h | h
  · interval_cases n <;> decide
  · rw [List.getD_eq_default]
    · decide
    · have hl : ("0123456789abcdef".data).length = 16 := rfl
      omega

theorem newline_not_in_escChar (c : Char) : '\n' ∉ escChar c := by
  unfold escChar
  split_ifs with h1 h2 h3 h4 h5 h6 h7 h8
  · decide
  · decide
  · decide
  · decide
  · decide
  · decide
  · decide
  · intro hmem
    simp only [List.mem_cons, List.not_mem_nil, or_false] at hmem
    rcases hmem with h | h | h | h | h | h
    · exact absurd h (by decide)
    · exact absurd h (by decide)
    · exact absurd h (by decide)
    · exact absurd h (by decide)
    · exact hexDigit_ne_newline _ h.symm
    · exact hexDigit_ne_newline _ h.symm
  · intro hmem
    exact h3 ((List.mem_singleton.mp hmem).symm)

theorem newline_not_in_jsonStrL (s : String) : '\n' ∉ jsonStrL s := by
  unfold jsonStrL
  intro h
  rcases List.mem_cons.mp h with h | h
  · exact absurd h (by decide)
  rcases List.mem_append.mp h with h | h
  · rcases List.mem_flatten.mp h with ⟨l, hl, hnl⟩
    rcases List.mem_map.mp hl with ⟨ch, _, rfl⟩
    exact newline_not_in_escChar ch hnl
  · exact absurd (List.mem_singleton.mp h) (by decide)

theorem newline_not_in_encodeEventJsonL (t r m : String) :
    '\n' ∉ encodeEventJsonL t r m := by
  unfold encodeEventJsonL
  intro h
  rcases List.mem_append.mp h with h | h
  · rcases List.mem_append.mp h with h | h
    · rcases List.mem_append.mp h with h | h
      · rcases List.mem_append.mp h with h | h
        · rcases List.mem_append.mp h with h | h
          · rcases List.mem_append.mp h with h | h
            · exact absurd h (by decide)
            · exact newline_not_in_jsonStrL t h
          · exact absurd h (by decide)
        · exact newline_not_in_jsonStrL r h
      · exact absurd h (by decide)
    · exact newline_not_in_jsonStrL m h
  · exact absurd h (by decide)

theorem newline_not_in_errorBodyL : '\n' ∉ errorBodyL := by decide

/-! ## Claim C1: classification and persistence of relayed events -/

/-- Claim C1 counterexample: a runtime message that is none of the specially
dispatched kinds (modelled by `otherMessage`, e.g. a stop message) is
serialized to the stream with type `"text"` but no chat-message entry is
persisted for it, refuting "every serialized agent event so classified is
recorded as a persisted chat-message entry before it is yielded". -/
theorem C1_counterexample :
    yieldsOf (chat_stream
        [StreamItem.msg (AgentMessage.otherMessage "stop_agent" "done")] true) =
      [Chunk.event "text" "stop_agent" "done"] ∧
    persistedOf (chat_stream
        [StreamItem.msg (AgentMessage.otherMessage "stop_agent" "done")] true) = [] := by
  constructor <;> rfl

/-- Claim C1, amended: every chunk the relay loop serializes (other than the
error line) carries exactly one of the three message types `"text"`,
`"tool_call"`, `"tool_result"`; and every serialized event that is a text
message, a tool-call request, or a tool-result message is persisted as a
chat-message entry with the same role, content and type immediately before
its chunk is yielded.  Events of any other kind that reach the serializer
are yielded with the default type `"text"` without being persisted. -/
theorem C1_classify_persist :
    (∀ (items : List StreamItem) (saveOk : Bool) (c : Chunk),
       c ∈ yieldsOf (chat_stream items saveOk) →
         c = Chunk.errorLine ∨ ∃ t r m, c = Chunk.event t r m ∧
           (t = "text" ∨ t = "tool_call" ∨ t = "tool_result")) ∧
    (∀ s c, s ≠ "" → isUserSource s = false →
       msgEffects (AgentMessage.textMessage s c) =
         ([Eff.persist ⟨s, stripTERMINATE c, "text"⟩,
           Eff.yieldChunk (Chunk.event "text" s (stripTERMINATE c))], false)) ∧
    (∀ s n, s ≠ "" → isUserSource s = false →
       msgEffects (AgentMessage.toolCallRequestEvent s n) =
         ([Eff.persist ⟨s, "Calling tool: " ++ n, "tool_call"⟩,
           Eff.yieldChunk (Chunk.event "tool_call" s ("Calling tool: " ++ n))], false)) ∧
    (∀ s r, s ≠ "" → isUserSource s = false →
       msgEffects (AgentMessage.functionExecutionResultMessage s r) =
         ([Eff.persist ⟨s, "```json\n" ++ r ++ "\n```", "tool_result"⟩,
           Eff.yieldChunk (Chunk.event "tool_result" s ("```json\n" ++ r ++ "\n```"))],
           false) ∧
       msgEffects (AgentMessage.toolCallSummaryMessage s r) =
         ([Eff.persist ⟨s, "```json\n" ++ r ++ "\n```", "tool_result"⟩,
           Eff.yieldChunk (Chunk.event "tool_result" s ("```json\n" ++ r ++ "\n```"))],
           false)) := by
  refine ⟨?_, ?_, ?_, ?_⟩
  · intro items saveOk c hc
    rcases chat_stream_yield_cases items saveOk c hc with h | h
    · exact Or.inl h
    · exact Or.inr (runRelay_yield_shape items c h)
  · intro s c h1 h2
    simp [msgEffects, h1, h2]
  · intro s n h1 h2
    simp [msgEffects, h1, h2]
  · intro s r h1 h2
    constructor <;> simp [msgEffects, h1, h2]

/-- Claim C1 witness: the persist-then-yield shape at a concrete agent text
message. -/
theorem C1_witness :
    msgEffects (AgentMessage.textMessage "hm3_general_agent" "Hello") =
      ([Eff.persist ⟨"hm3_general_agent", stripTERMINATE "Hello", "text"⟩,
        Eff.yieldChunk
          (Chunk.event "text" "hm3_general_agent" (stripTERMINATE "Hello"))], false) :=
  C1_classify_persist.2.1 "hm3_general_agent" "Hello" (by decide) (by decide)

/-! ## Claim C2: the team state is checkpointed exactly once -/

/-- Claim C2: whenever the relay loop finishes consuming the event stream
without an exception (also when it breaks early on a
`UserInputRequestedEvent`, in which case the external termination condition
is set), the team state is written to the per-chat state file exactly once,
as the last action of the generator. -/
theorem C2_checkpoint (items : List StreamItem)
    (h : (runRelay items).2 ≠ LoopExit.raised) :
    saveCount (chat_stream items true) = 1 ∧
    (chat_stream items true).getLast? = some Eff.saveState ∧
    ((runRelay items).2 = LoopExit.broke →
       Eff.setTermination ∈ chat_stream items true) := by
  have hsv : Eff.saveState ∉ (runRelay items).1 := runRelay_no_saveState items
  have hterm : (runRelay items).2 = LoopExit.broke →
      Eff.setTermination ∈ (runRelay items).1 := runRelay_broke_term items
  unfold chat_stream
  cases hr : runRelay items with
  | mk t ex =>
      rw [hr] at hsv hterm h
      have hcount : saveCount t = 0 := by
        apply List.countP_eq_zero.mpr
        intro e he
        simp only [beq_iff_eq]
        intro heq
        exact hsv (heq ▸ he)
      cases ex with
      | raised => exact absurd rfl h
      | completed =>
          refine ⟨?_, ?_, ?_⟩
          · simp only [saveCount, List.countP_append] at hcount ⊢
            simp [hcount, saveCount]
          · show (t ++ [Eff.saveState]).getLast? = some Eff.saveState
            rw [List.getLast?_append_cons]
            rfl
          · intro hb
            exact absurd hb (by simp)
      | broke =>
          refine ⟨?_, ?_, ?_⟩
          · simp only [saveCount, List.countP_append] at hcount ⊢
            simp [hcount, saveCount]
          · show (t ++ [Eff.saveState]).getLast? = some Eff.saveState
            rw [List.getLast?_append_cons]
            rfl
          · intro _
            exact List.mem_append.mpr (Or.inl (hterm rfl))

/-- Claim C2 witness: a stream that stops early on a
`UserInputRequestedEvent` still checkpoints exactly once and sets the
termination condition. -/
theorem C2_witness :
    saveCount (chat_stream
        [StreamItem.msg (AgentMessage.userInputRequestedEvent "user_agent")] true) = 1 ∧
    Eff.setTermination ∈ chat_stream
        [StreamItem.msg (AgentMessage.userInputRequestedEvent "user_agent")] true := by
  have h := C2_checkpoint
    [StreamItem.msg (AgentMessage.userInputRequestedEvent "user_agent")] (by decide)
  exact ⟨h.1, h.2.2 (by decide)⟩

/-! ## Claim C3: every chunk is one JSON object plus a newline -/

/-- Claim C3: every chunk the streaming generator yields — the relayed-event
chunks and the error chunk — is a single serialized JSON object followed by
one newline, and the serialized object itself contains no raw newline, so
the body of `POST /api/chats/\x7bchat_id\x7d/query` (which returns
`Stream(chat_stream(...))`) is a stream of JSON lines. -/
theorem C3_json_lines (items : List StreamItem) (saveOk : Bool) :
    ∀ c ∈ yieldsOf (chat_stream items saveOk),
      ∃ body : List Char, chunkBytes c = String.mk (body ++ ['\n']) ∧
        '\n' ∉ body ∧
        (body = errorBodyL ∨ ∃ t r m, body = encodeEventJsonL t r m) := by
  intro c _
  cases c with
  | event t r m =>
      exact ⟨encodeEventJsonL t r m, rfl, newline_not_in_encodeEventJsonL t r m,
        Or.inr ⟨t, r, m, rfl⟩⟩
  | errorLine =>
      exact ⟨errorBodyL, rfl, newline_not_in_errorBodyL, Or.inl rfl⟩

/-- Claim C3 witness: the error chunk of a failing stream is a JSON line. -/
theorem C3_witness :
    ∃ body : List Char, chunkBytes Chunk.errorLine = String.mk (body ++ ['\n']) ∧
      '\n' ∉ body ∧
      (body = errorBodyL ∨ ∃ t r m, body = encodeEventJsonL t r m) :=
  C3_json_lines [StreamItem.raiseExc] true Chunk.errorLine (by decide)

/-! ## Claim C4: broad exception handling -/

/-- Claim C4: if an exception is raised while consuming the event stream or
while saving the team state, the generator catches it and yields exactly one
final error line — the fixed JSON object with role `"system"` and the
generic user-facing message — and nothing else escapes: the model of the
generator is a total function on the stream, the `except` branch being its
only exit on error (no team state is saved in that case). -/
theorem C4_error_line (items : List StreamItem) (saveOk : Bool)
    (h : (runRelay items).2 = LoopExit.raised ∨ saveOk = false) :
    ∃ cs, yieldsOf (chat_stream items saveOk) = cs ++ [Chunk.errorLine] ∧
      Chunk.errorLine ∉ cs ∧
      saveCount (chat_stream items saveOk) = 0 ∧
      hasSub ("\"role\": \"system\"".data) errorBodyL = true ∧
      '\n' ∉ errorBodyL := by
  have hnE : Chunk.errorLine ∉ yieldsOf (runRelay items).1 :=
    errorLine_not_in_runRelay_yields items
  have hsv : Eff.saveState ∉ (runRelay items).1 := runRelay_no_saveState items
  unfold chat_stream
  cases hr : runRelay items with
  | mk t ex =>
      rw [hr] at hnE hsv h
      have hcount : saveCount t = 0 := by
        apply List.countP_eq_zero.mpr
        intro e he
        simp only [beq_iff_eq]
        intro heq
        exact hsv (heq ▸ he)
      have herr : yieldsOf (t ++ [Eff.yieldChunk Chunk.errorLine]) =
          yieldsOf t ++ [Chunk.errorLine] := by
        simp [yieldsOf, List.filterMap_append]
      have hcnt : saveCount (t ++ [Eff.yieldChunk Chunk.errorLine]) = 0 := by
        simp only [saveCount, List.countP_append] at hcount ⊢
        simp [hcount, saveCount]
      cases ex with
      | raised =>
          exact ⟨yieldsOf t, herr, hnE, hcnt, by decide, newline_not_in_errorBodyL⟩
      | completed =>
          rcases h with h | h
          · exact absurd h (by simp)
          · subst h
            exact ⟨yieldsOf t, herr, hnE, hcnt, by decide, newline_not_in_errorBodyL⟩
      | broke =>
          rcases h with h | h
          · exact absurd h (by simp)
          · subst h
            exact ⟨yieldsOf t, herr, hnE, hcnt, by decide, newline_not_in_errorBodyL⟩

/-- Claim C4 witness: a stream whose first step raises yields exactly the
error line. -/
theorem C4_witness :
    ∃ cs, yieldsOf (chat_stream [StreamItem.raiseExc] true) = cs ++ [Chunk.errorLine] ∧
      Chunk.errorLine ∉ cs ∧
      saveCount (chat_stream [StreamItem.raiseExc] true) = 0 ∧
      hasSub ("\"role\": \"system\"".data) errorBodyL = true ∧
      '\n' ∉ errorBodyL :=
  C4_error_line [StreamItem.raiseExc] true (Or.inl (by decide))

end HM3
